import Mathlib

/-!
Verification development for the riscv-hpc-benchmark repository.

The three C source files are shallowly embedded over exact rational
arithmetic (ℚ stands for the C `double`; the parallel-for pragmas are
scheduling directives with no sequential semantics, so serial and
parallel variants embed to the sequential loop they annotate).  Buffers
are total functions `ℕ → ℚ`; loops become `List.foldl` over the index
ranges the C loops traverse.
-/

namespace HpcBench

/-! ## matmul.c : the three matrix-multiply variants -/

/-- matmul.c, `matmul_serial` (lines 38-48): `C[i*n+j]` is the foldl
accumulation `sum += A[i*n+k] * B[k*n+j]` for `k = 0..n-1`. -/
def matmul_serial (A B : ℕ → ℚ) (n : ℕ) : ℕ → ℕ → ℚ :=
  fun i j => (List.range n).foldl (fun sum k => sum + A (i * n + k) * B (k * n + j)) 0

/-- matmul.c, `matmul_parallel` (lines 51-62): body identical to
`matmul_serial`; the `omp parallel for` pragma only schedules rows. -/
def matmul_parallel (A B : ℕ → ℚ) (n : ℕ) : ℕ → ℕ → ℚ :=
  fun i j => (List.range n).foldl (fun sum k => sum + A (i * n + k) * B (k * n + j)) 0

/-- matmul.c, `matmul_parallel_collapse` (lines 65-76): body identical to
`matmul_serial`; the `omp parallel for collapse(2)` pragma only schedules
the fused (i,j) space. -/
def matmul_parallel_collapse (A B : ℕ → ℚ) (n : ℕ) : ℕ → ℕ → ℚ :=
  fun i j => (List.range n).foldl (fun sum k => sum + A (i * n + k) * B (k * n + j)) 0

/-- Claim C1: for every size n, all inputs A and B and every entry (i,j),
the three matrix-multiply variants agree exactly under the sequential
embedding, hence their elementwise absolute differences are at most 1e-6. -/
theorem matmul_variants_agree (A B : ℕ → ℚ) (n i j : ℕ) :
    matmul_serial A B n i j = matmul_parallel A B n i j ∧
    matmul_serial A B n i j = matmul_parallel_collapse A B n i j ∧
    |matmul_serial A B n i j - matmul_parallel A B n i j| ≤ 1 / 1000000 ∧
    |matmul_serial A B n i j - matmul_parallel_collapse A B n i j| ≤ 1 / 1000000 ∧
    |matmul_parallel A B n i j - matmul_parallel_collapse A B n i j| ≤ 1 / 1000000 := by
  refine ⟨rfl, rfl, ?_, ?_, ?_⟩ <;>
    simp [matmul_serial, matmul_parallel, matmul_parallel_collapse]

/-! ## matmul.c / vector_add.c : the two result verifiers -/

/-- A recorded mismatch: matmul.c's `verify_results` prints, for each of
the first 5 errors, the index, the two values and the absolute difference. -/
structure Mismatch where
  idx : ℕ
  v1 : ℚ
  v2 : ℚ
  diff : ℚ
deriving DecidableEq

/-- One step of the loop body of matmul.c's `verify_results` (lines 81-89):
on a mismatch, increment `errors` and, if `errors <= 5` after the
increment, record the mismatch. -/
def verifyStep (C1 C2 : ℕ → ℚ) (tol : ℚ) (st : ℕ × List Mismatch) (i : ℕ) :
    ℕ × List Mismatch :=
  if tol < |C1 i - C2 i| then
    let errors := st.1 + 1
    (errors,
      if errors ≤ 5 then st.2 ++ [⟨i, C1 i, C2 i, |C1 i - C2 i|⟩] else st.2)
  else st

/-- matmul.c, `verify_results` (lines 79-91): scan all `n*n` entries,
count entries with `fabs(C1[i]-C2[i]) > tolerance` and print the first 5
such mismatches; returns the error count (first component) together with
the recorded mismatches (second component). -/
def verify_results (C1 C2 : ℕ → ℚ) (n : ℕ) (tol : ℚ) : ℕ × List Mismatch :=
  (List.range (n * n)).foldl (verifyStep C1 C2 tol) (0, [])

/-- vector_add.c, `verify_results` (lines 39-47), loop part: return 0
at the first index whose difference exceeds the tolerance, else 1. -/
def verifyVecLoop (c1 c2 : ℕ → ℚ) (tol : ℚ) : List ℕ → ℤ
  | [] => 1
  | i :: rest => if tol < |c1 i - c2 i| then 0 else verifyVecLoop c1 c2 tol rest

/-- vector_add.c, `verify_results` (lines 39-47): scan indices `0..n-1`. -/
def verify_results_vec (c1 c2 : ℕ → ℚ) (n : ℕ) (tol : ℚ) : ℤ :=
  verifyVecLoop c1 c2 tol (List.range n)

/-- Modelled from the spec: the list of mismatching indices of a length-m
scan, in index order (used to state what a verifier should report). -/
def spec_mismatchIdx (C1 C2 : ℕ → ℚ) (m : ℕ) (tol : ℚ) : List ℕ :=
  (List.range m).filter (fun i => decide (tol < |C1 i - C2 i|))

/-- Modelled from the spec: the total error count of a length-m scan. -/
def spec_totalErrorCount (C1 C2 : ℕ → ℚ) (m : ℕ) (tol : ℚ) : ℕ :=
  (spec_mismatchIdx C1 C2 m tol).length

/-- Modelled from the spec: the mismatch records of a length-m scan. -/
def spec_mismatchRecords (C1 C2 : ℕ → ℚ) (m : ℕ) (tol : ℚ) : List Mismatch :=
  (spec_mismatchIdx C1 C2 m tol).map (fun i => ⟨i, C1 i, C2 i, |C1 i - C2 i|⟩)

lemma verify_loop_spec (C1 C2 : ℕ → ℚ) (tol : ℚ) :
    ∀ (l : List ℕ) (c : ℕ) (r : List Mismatch),
      l.foldl (verifyStep C1 C2 tol) (c, r) =
        (c + (l.filter (fun i => decide (tol < |C1 i - C2 i|))).length,
          r ++ ((l.filter (fun i => decide (tol < |C1 i - C2 i|))).map
            (fun i => (⟨i, C1 i, C2 i, |C1 i - C2 i|⟩ : Mismatch))).take (5 - c)) := by
  intro l
  induction l with
  | nil => intro c r; simp
  | cons i rest ih =>
    intro c r
    by_cases h : tol < |C1 i - C2 i|
    · by_cases hc : c + 1 ≤ 5
      · have h5 : 5 - c = (5 - (c + 1)) + 1 := by omega
        simp [verifyStep, h, hc, ih, h5, List.take_succ_cons]
        all_goals omega
      · have h5 : 5 - c = 0 := by omega
        simp [verifyStep, h, hc, ih, h5]
        all_goals omega
    · simp [verifyStep, h, ih]

lemma verifyVecLoop_eq_one (c1 c2 : ℕ → ℚ) (tol : ℚ) :
    ∀ l : List ℕ, (verifyVecLoop c1 c2 tol l = 1 ↔ ∀ i ∈ l, |c1 i - c2 i| ≤ tol) := by
  intro l
  induction l with
  | nil => simp [verifyVecLoop]
  | cons i rest ih =>
    by_cases h : tol < |c1 i - c2 i|
    · simp [verifyVecLoop, h]
    · simp [verifyVecLoop, h, ih, le_of_not_lt h]

lemma verifyVecLoop_zero_or_one (c1 c2 : ℕ → ℚ) (tol : ℚ) :
    ∀ l : List ℕ, verifyVecLoop c1 c2 tol l = 0 ∨ verifyVecLoop c1 c2 tol l = 1 := by
  intro l
  induction l with
  | nil => simp [verifyVecLoop]
  | cons i rest ih =>
    by_cases h : tol < |c1 i - c2 i| <;> simp [verifyVecLoop, h, ih]

/-- Claim C2, counterexample: vector_add.c's `verify_results`, on two
length-2 buffers that differ at both entries, returns 0 — not the total
error count 2 — falsifying the claim that the buffer-comparison verifier
scans the whole buffer and returns the total error count. -/
theorem verify_vec_not_error_count :
    verify_results_vec (fun _ => (0 : ℚ)) (fun _ => (1 : ℚ)) 2 0 ≠
      (spec_totalErrorCount (fun _ => (0 : ℚ)) (fun _ => (1 : ℚ)) 2 0 : ℤ) := by
  have h1 : verify_results_vec (fun _ => (0 : ℚ)) (fun _ => (1 : ℚ)) 2 0 = 0 := by
    norm_num [verify_results_vec, verifyVecLoop, List.range_succ]
  have h2 : spec_totalErrorCount (fun _ => (0 : ℚ)) (fun _ => (1 : ℚ)) 2 0 = 2 := by
    norm_num [spec_totalErrorCount, spec_mismatchIdx, List.range_succ]
  rw [h1, h2]
  norm_num

/-- Claim C2 (amended): matmul.c's `verify_results` flags entry i exactly
when `|C1 i - C2 i| > tol`, scans all `n*n` entries, returns the total
error count, records exactly the first 5 mismatches, and passes (count 0)
iff every entry is within tolerance; vector_add.c's `verify_results`
instead returns 1 when all `n` entries are within tolerance and 0
otherwise (stopping at the first mismatch), so it yields only a pass/fail
bit, never a count. -/
theorem verify_results_spec (C1 C2 : ℕ → ℚ) (n : ℕ) (tol : ℚ) :
    (verify_results C1 C2 n tol).1 = spec_totalErrorCount C1 C2 (n * n) tol ∧
    (verify_results C1 C2 n tol).2 = (spec_mismatchRecords C1 C2 (n * n) tol).take 5 ∧
    ((verify_results C1 C2 n tol).1 = 0 ↔ ∀ i < n * n, |C1 i - C2 i| ≤ tol) ∧
    (verify_results_vec C1 C2 n tol = 1 ↔ ∀ i < n, |C1 i - C2 i| ≤ tol) ∧
    (verify_results_vec C1 C2 n tol = 0 ∨ verify_results_vec C1 C2 n tol = 1) := by
  have hloop := verify_loop_spec C1 C2 tol (List.range (n * n)) 0 []
  refine ⟨?_, ?_, ?_, ?_, ?_⟩
  · simp [verify_results, hloop, spec_totalErrorCount, spec_mismatchIdx]
  · simp [verify_results, hloop, spec_mismatchRecords, spec_mismatchIdx]
  · simp only [verify_results, hloop]
    simp [spec_mismatchIdx, List.filter_eq_nil_iff, not_lt]
  · rw [verify_results_vec, verifyVecLoop_eq_one]
    simp
  · exact verifyVecLoop_zero_or_one C1 C2 tol (List.range n)

/-! ## stream.c : the analytic verifier `checkSTREAMresults` -/

/-- stream.c: `scalar = 3.0` (set in `main` line 176 and in
`checkSTREAMresults` line 293). -/
def scalar : ℚ := 3

/-- One iteration of the scalar recurrence of `checkSTREAMresults`
(lines 294-300): `cj = aj; bj = scalar*cj; cj = aj+bj; aj = bj+scalar*cj`. -/
def streamScalarStep (s : ℚ × ℚ × ℚ) : ℚ × ℚ × ℚ :=
  let aj := s.1
  let cj := aj
  let bj := scalar * cj
  let cj := aj + bj
  let aj := bj + scalar * cj
  (aj, bj, cj)

/-- The `for (k=0; k<NTIMES; k++)` loop of `checkSTREAMresults`:
apply the scalar recurrence `n` times. -/
def scalarLoop : ℕ → (ℚ × ℚ × ℚ) → (ℚ × ℚ × ℚ)
  | 0, s => s
  | n + 1, s => scalarLoop n (streamScalarStep s)

/-- stream.c, `checkSTREAMresults` lines 287-300: reproduce starting
values `aj=1.0, bj=2.0, cj=0.0`, the doubling `aj = 2.0E0*aj` (mirroring
`main`'s timing-calibration pass over `a`), then NTIMES recurrence steps. -/
def expectedVals (ntimes : ℕ) : ℚ × ℚ × ℚ :=
  let aj : ℚ := 1
  let bj : ℚ := 2
  let cj : ℚ := 0
  let aj := 2 * aj
  scalarLoop ntimes (aj, bj, cj)

/-- Modelled from the spec: the expected trajectory as the claim words it,
the recurrence applied NTIMES times directly to the initial constants
`a=1.0, b=2.0, c=0.0` (no doubling step). -/
def spec_expectedVals (ntimes : ℕ) : ℚ × ℚ × ℚ :=
  scalarLoop ntimes (1, 2, 0)

/-- stream.c lines 314-323: the epsilon tied to `sizeof(STREAM_TYPE)`. -/
def epsilonFor (bytes : ℕ) : ℚ :=
  if bytes = 4 then 1 / 1000000
  else if bytes = 8 then 1 / 10000000000000
  else 1 / 1000000

/-- stream.c lines 302-312: `xSumErr` accumulated over the whole array,
divided by the array size. -/
def avgAbsErr (size : ℕ) (x : ℕ → ℚ) (xj : ℚ) : ℚ :=
  ((List.range size).foldl (fun s j => s + |x j - xj|) 0) / (size : ℚ)

/-- stream.c, `checkSTREAMresults` (lines 278-383): the number of arrays
whose average relative absolute error exceeds epsilon; the run validates
(prints `Solution Validates`) iff this count `err` is 0. -/
def checkSTREAMresults (size ntimes bytes : ℕ) (a b c : ℕ → ℚ) : ℕ :=
  let e := expectedVals ntimes
  let aj := e.1
  let bj := e.2.1
  let cj := e.2.2
  let aAvgErr := avgAbsErr size a aj
  let bAvgErr := avgAbsErr size b bj
  let cAvgErr := avgAbsErr size c cj
  let epsilon := epsilonFor bytes
  (if |aAvgErr / aj| > epsilon then 1 else 0) +
    (if |bAvgErr / bj| > epsilon then 1 else 0) +
    (if |cAvgErr / cj| > epsilon then 1 else 0)

lemma streamScalarStep_eq (s : ℚ × ℚ × ℚ) :
    streamScalarStep s = (15 * s.1, 3 * s.1, 4 * s.1) := by
  show (3 * s.1 + 3 * (s.1 + 3 * s.1), 3 * s.1, s.1 + 3 * s.1) = _
  refine Prod.ext ?_ (Prod.ext ?_ ?_) <;> simp <;> ring

lemma scalarLoop_closed :
    ∀ (n : ℕ) (s : ℚ × ℚ × ℚ),
      scalarLoop (n + 1) s = (15 ^ (n + 1) * s.1, 3 * 15 ^ n * s.1, 4 * 15 ^ n * s.1) := by
  intro n
  induction n with
  | zero =>
    intro s
    show scalarLoop 0 (streamScalarStep s) = _
    rw [scalarLoop, streamScalarStep_eq]
    norm_num
  | succ m ih =>
    intro s
    show scalarLoop (m + 1) (streamScalarStep s) = _
    rw [ih, streamScalarStep_eq]
    simp only [Prod.ext_iff]
    refine ⟨by ring, by ring, by ring⟩

lemma expectedVals_closed (n : ℕ) :
    expectedVals (n + 1) = (2 * 15 ^ (n + 1), 6 * 15 ^ n, 8 * 15 ^ n) := by
  show scalarLoop (n + 1) (2 * 1, 2, 0) = _
  rw [scalarLoop_closed]
  simp only [Prod.ext_iff]
  refine ⟨by ring, by ring, by ring⟩

lemma spec_expectedVals_closed (n : ℕ) :
    spec_expectedVals (n + 1) = (15 ^ (n + 1), 3 * 15 ^ n, 4 * 15 ^ n) := by
  show scalarLoop (n + 1) (1, 2, 0) = _
  rw [scalarLoop_closed]
  simp only [Prod.ext_iff]
  refine ⟨by ring, by ring, by ring⟩

lemma foldl_add_abs (x : ℕ → ℚ) (xj : ℚ) :
    ∀ (l : List ℕ) (init : ℚ),
      l.foldl (fun s j => s + |x j - xj|) init =
        init + (l.map (fun j => |x j - xj|)).sum := by
  intro l
  induction l with
  | nil => intro init; simp
  | cons i rest ih => intro init; simp [ih, add_assoc]

lemma avgAbsErr_const (size : ℕ) (xj : ℚ) :
    avgAbsErr size (fun _ => xj) xj = 0 := by
  simp [avgAbsErr, foldl_add_abs]

lemma sum_indicator_head (d : ℚ) :
    ∀ n : ℕ, 0 < n →
      ((List.range n).map (fun j => if j = 0 then d else 0)).sum = d := by
  intro n
  induction n with
  | zero => intro h; exact absurd h (lt_irrefl 0)
  | succ m ih =>
    intro _
    rw [List.range_succ]
    by_cases hm : m = 0
    · subst hm; simp
    · simp [hm, ih (Nat.pos_of_ne_zero hm)]

lemma avgAbsErr_pert (size : ℕ) (hsize : 0 < size) (xj δ : ℚ) :
    avgAbsErr size (fun j => if j = 0 then xj + δ else xj) xj = |δ| / size := by
  rw [avgAbsErr, foldl_add_abs, zero_add]
  have hmap : ((List.range size).map fun j => |(if j = 0 then xj + δ else xj) - xj|) =
      (List.range size).map (fun j => if j = 0 then |δ| else 0) := by
    apply List.map_congr_left
    intro j _
    by_cases hj : j = 0 <;> simp [hj]
  rw [hmap, sum_indicator_head |δ| size hsize]

lemma epsilonFor_pos (bytes : ℕ) : 0 < epsilonFor bytes := by
  unfold epsilonFor
  split_ifs <;> norm_num

lemma checkSTREAMresults_eq_zero_iff (size ntimes bytes : ℕ) (a b c : ℕ → ℚ) :
    checkSTREAMresults size ntimes bytes a b c = 0 ↔
      |avgAbsErr size a (expectedVals ntimes).1 / (expectedVals ntimes).1| ≤
          epsilonFor bytes ∧
      |avgAbsErr size b (expectedVals ntimes).2.1 / (expectedVals ntimes).2.1| ≤
          epsilonFor bytes ∧
      |avgAbsErr size c (expectedVals ntimes).2.2 / (expectedVals ntimes).2.2| ≤
          epsilonFor bytes := by
  simp only [checkSTREAMresults]
  split_ifs with h1 h2 h3 <;> simp_all [not_lt, le_of_lt]

/-- Claim C3, counterexample: with NTIMES = 10 the verifier's expected
values (initial `aj` doubled before the recurrence, as in
`checkSTREAMresults` line 291) differ from the recurrence applied to the
undoubled constants a=1.0, b=2.0, c=0.0 that the claim names; moreover a
size-10 double-precision (8-byte) run whose array `a` has one element
perturbed beyond epsilon relative error (the code's own per-element test,
line 332) still validates, because only the average error is checked. -/
theorem checkSTREAM_claim_false :
    spec_expectedVals 10 ≠ expectedVals 10 ∧
    |(1153300781250 + 1 / 4 : ℚ) / 1153300781250 - 1| > epsilonFor 8 ∧
    checkSTREAMresults 10 10 8
        (fun j => if j = 0 then (1153300781250 : ℚ) + 1 / 4 else 1153300781250)
        (fun _ => (230660156250 : ℚ)) (fun _ => (307546875000 : ℚ)) = 0 := by
  have hev : expectedVals 10 = ((1153300781250 : ℚ), (230660156250 : ℚ), (307546875000 : ℚ)) := by
    have := expectedVals_closed 9
    norm_num at this
    exact this
  have hsev : spec_expectedVals 10 = ((576650390625 : ℚ), (115330078125 : ℚ), (153773437500 : ℚ)) := by
    have := spec_expectedVals_closed 9
    norm_num at this
    exact this
  refine ⟨?_, ?_, ?_⟩
  · rw [hev, hsev]
    intro h
    have h1 := congrArg Prod.fst h
    norm_num at h1
  · rw [show ((1153300781250 : ℚ) + 1 / 4) / 1153300781250 - 1 = 1 / 4613203125000 by norm_num]
    rw [abs_of_nonneg (by norm_num)]
    norm_num [epsilonFor]
  · rw [checkSTREAMresults_eq_zero_iff]
    rw [hev]
    have hpa : avgAbsErr 10 (fun j => if j = 0 then (1153300781250 : ℚ) + 1 / 4 else 1153300781250)
        (1153300781250 : ℚ) = |(1 / 4 : ℚ)| / 10 := by
      have := avgAbsErr_pert 10 (by norm_num) (1153300781250 : ℚ) (1 / 4)
      simpa using this
    rw [hpa, avgAbsErr_const, avgAbsErr_const]
    rw [abs_of_nonneg (a := (1 / 4 : ℚ)) (by norm_num)]
    rw [abs_of_nonneg (by norm_num), abs_of_nonneg (by norm_num), abs_of_nonneg (by norm_num)]
    norm_num [epsilonFor]

/-- Claim C3 (amended): the STREAM analytic verifier computes the expected
scalars by doubling the initial a (1.0 → 2.0, mirroring the harness's
timing-calibration pass over array a) and then applying the recurrence
Copy, Scale, Add, Triad exactly NTIMES times with b=2.0, c=0.0 and
scalar=3.0; epsilon is 1e-6 for a 4-byte and 1e-13 for an 8-byte element
type; an array fails iff its average relative absolute error exceeds
epsilon; an unperturbed result passes, and a result with one element of
array a perturbed by δ fails iff the induced average relative error
(|δ|/n)/expected exceeds epsilon — not iff the single element's own
relative error exceeds epsilon. -/
theorem checkSTREAM_spec (size ntimes bytes : ℕ) (a b c : ℕ → ℚ) (δ : ℚ)
    (hsize : 0 < size) :
    expectedVals ntimes = scalarLoop ntimes (2 * 1, 2, 0) ∧
    epsilonFor 4 = 1 / 1000000 ∧ epsilonFor 8 = 1 / 10000000000000 ∧
    (checkSTREAMresults size ntimes bytes a b c = 0 ↔
      |avgAbsErr size a (expectedVals ntimes).1 / (expectedVals ntimes).1| ≤
          epsilonFor bytes ∧
      |avgAbsErr size b (expectedVals ntimes).2.1 / (expectedVals ntimes).2.1| ≤
          epsilonFor bytes ∧
      |avgAbsErr size c (expectedVals ntimes).2.2 / (expectedVals ntimes).2.2| ≤
          epsilonFor bytes) ∧
    checkSTREAMresults size ntimes bytes (fun _ => (expectedVals ntimes).1)
        (fun _ => (expectedVals ntimes).2.1) (fun _ => (expectedVals ntimes).2.2) = 0 ∧
    (checkSTREAMresults size ntimes bytes
        (fun j => if j = 0 then (expectedVals ntimes).1 + δ else (expectedVals ntimes).1)
        (fun _ => (expectedVals ntimes).2.1) (fun _ => (expectedVals ntimes).2.2) = 0 ↔
      |(|δ| / size) / (expectedVals ntimes).1| ≤ epsilonFor bytes) := by
  have heps := epsilonFor_pos bytes
  refine ⟨rfl, rfl, rfl, checkSTREAMresults_eq_zero_iff _ _ _ _ _ _, ?_, ?_⟩
  · rw [checkSTREAMresults_eq_zero_iff]
    simp [avgAbsErr_const, le_of_lt heps]
  · rw [checkSTREAMresults_eq_zero_iff]
    rw [avgAbsErr_pert size hsize, avgAbsErr_const, avgAbsErr_const]
    simp [le_of_lt heps]

/-- Claim C3, witness: the amended theorem applied at size 1, NTIMES 1,
8-byte elements, perturbation 0. -/
theorem checkSTREAM_spec_witness :
    0 < 1 ∧
    checkSTREAMresults 1 1 8 (fun _ => (expectedVals 1).1)
      (fun _ => (expectedVals 1).2.1) (fun _ => (expectedVals 1).2.2) = 0 :=
  ⟨by norm_num,
    (checkSTREAM_spec 1 1 8 (fun _ => (expectedVals 1).1)
      (fun _ => (expectedVals 1).2.1) (fun _ => (expectedVals 1).2.2) 0
      (by norm_num)).2.2.2.2.1⟩

/-! ## stream.c : the four kernels over the shared buffer triple -/

/-- The three file-scope STREAM arrays (stream.c lines 65-67), as total
functions; indices at or beyond the configured array size keep whatever
value they hold (static storage is zero before the init loop). -/
structure StreamState where
  a : ℕ → ℚ
  b : ℕ → ℚ
  c : ℕ → ℚ

/-- stream.c lines 140-144: `a[j]=1.0; b[j]=2.0; c[j]=0.0` for
`j < STREAM_ARRAY_SIZE`, on top of zeroed static storage. -/
def streamInitState (size : ℕ) : StreamState where
  a := fun j => if j < size then 1 else 0
  b := fun j => if j < size then 2 else 0
  c := fun _ => 0

/-- stream.c lines 159-160: the timing-calibration pass `a[j] = 2.0E0*a[j]`. -/
def doubleA (size : ℕ) (s : StreamState) : StreamState :=
  { s with a := fun j => if j < size then 2 * s.a j else s.a j }

/-- stream.c lines 183-184, Copy kernel: `c[j] = a[j]`. -/
def copyKernel (size : ℕ) (s : StreamState) : StreamState :=
  { s with c := fun j => if j < size then s.a j else s.c j }

/-- stream.c lines 191-192, Scale kernel: `b[j] = scalar*c[j]`. -/
def scaleKernel (size : ℕ) (s : StreamState) : StreamState :=
  { s with b := fun j => if j < size then scalar * s.c j else s.b j }

/-- stream.c lines 199-200, Add kernel: `c[j] = a[j]+b[j]`. -/
def addKernel (size : ℕ) (s : StreamState) : StreamState :=
  { s with c := fun j => if j < size then s.a j + s.b j else s.c j }

/-- stream.c lines 207-208, Triad kernel: `a[j] = b[j]+scalar*c[j]`. -/
def triadKernel (size : ℕ) (s : StreamState) : StreamState :=
  { s with a := fun j => if j < size then s.b j + scalar * s.c j else s.a j }

/-- One trial of the main loop (lines 177-210): Copy, Scale, Add, Triad,
in this order, all over the same buffer triple. -/
def streamTrial (size : ℕ) (s : StreamState) : StreamState :=
  triadKernel size (addKernel size (scaleKernel size (copyKernel size s)))

/-- The `for (k=0; k<NTIMES; k++)` main loop: run `k` trials. -/
def runTrials (size : ℕ) : ℕ → StreamState → StreamState
  | 0, s => s
  | k + 1, s => runTrials size k (streamTrial size s)

/-- The buffer triple as trial `k` (0-based) finds it: arrays were
filled with 1.0/2.0/0.0, `a` was doubled by the calibration pass, and `k` earlier
trials have run. -/
def stateBeforeTrial (size k : ℕ) : StreamState :=
  runTrials size k (doubleA size (streamInitState size))

lemma runTrials_succ_right (size : ℕ) :
    ∀ (m : ℕ) (s : StreamState),
      runTrials size (m + 1) s = streamTrial size (runTrials size m s) := by
  intro m
  induction m with
  | zero => intro s; rfl
  | succ p ih =>
    intro s
    show runTrials size (p + 1) (streamTrial size s) = _
    rw [ih]
    rfl

/-- Claim C6: the four kernels run in the fixed order Copy, Scale, Add,
Triad within each trial, and for every trial k ≥ 1 the state — in
particular the array `a` — read by trial k's Copy is exactly the state
written by trial k-1's Triad: the trials chain over one buffer triple. -/
theorem stream_trials_chain (size k : ℕ) (hk : 1 ≤ k) :
    stateBeforeTrial size k =
      triadKernel size (addKernel size (scaleKernel size (copyKernel size
        (stateBeforeTrial size (k - 1))))) ∧
    (stateBeforeTrial size k).a =
      (triadKernel size (addKernel size (scaleKernel size (copyKernel size
        (stateBeforeTrial size (k - 1)))))).a := by
  obtain ⟨m, rfl⟩ : ∃ m, k = m + 1 := ⟨k - 1, by omega⟩
  have h : stateBeforeTrial size (m + 1) =
      streamTrial size (stateBeforeTrial size m) :=
    runTrials_succ_right size m (doubleA size (streamInitState size))
  have h2 : m + 1 - 1 = m := by omega
  rw [h2]
  exact ⟨h, congrArg StreamState.a h⟩

/-- Claim C6, witness: the chain equation at size 1, trial 1. -/
theorem stream_trials_chain_witness :
    stateBeforeTrial 1 1 =
      triadKernel 1 (addKernel 1 (scaleKernel 1 (copyKernel 1
        (stateBeforeTrial 1 0)))) :=
  (stream_trials_chain 1 1 (by decide)).1

lemma scalarLoop_succ_right :
    ∀ (m : ℕ) (s : ℚ × ℚ × ℚ),
      scalarLoop (m + 1) s = streamScalarStep (scalarLoop m s) := by
  intro m
  induction m with
  | zero => intro s; rfl
  | succ p ih =>
    intro s
    show scalarLoop (p + 1) (streamScalarStep s) = _
    rw [ih]
    rfl

lemma stateBeforeTrial_const (size : ℕ) :
    ∀ k j, j < size →
      (stateBeforeTrial size k).a j = (scalarLoop k (2, 2, 0)).1 ∧
      (stateBeforeTrial size k).b j = (scalarLoop k (2, 2, 0)).2.1 ∧
      (stateBeforeTrial size k).c j = (scalarLoop k (2, 2, 0)).2.2 := by
  intro k
  induction k with
  | zero =>
    intro j hj
    refine ⟨?_, ?_, ?_⟩ <;>
      simp [stateBeforeTrial, runTrials, doubleA, streamInitState, scalarLoop, hj]
  | succ m ih =>
    intro j hj
    obtain ⟨ha, hb, hc⟩ := ih j hj
    have hstep : stateBeforeTrial size (m + 1) =
        streamTrial size (stateBeforeTrial size m) :=
      runTrials_succ_right size m (doubleA size (streamInitState size))
    rw [hstep, scalarLoop_succ_right, streamScalarStep_eq]
    refine ⟨?_, ?_, ?_⟩ <;>
      simp [streamTrial, triadKernel, addKernel, scaleKernel, copyKernel,
        hj, ha, scalar] <;> ring

/-- Claim C10: for every trial k and every in-range index j, the three
arrays are elementwise constant before the trial and after each of the
four kernel steps, the common values following the scalar recurrence
trajectory from a=2.0 (the doubled 1.0), b=2.0, c=0.0: after Copy
`c = a_k`, after Scale `b = scalar·a_k` (the next trajectory b), after
Add `c` reaches the next trajectory c, and after Triad `a` reaches the
next trajectory a. -/
theorem stream_arrays_elementwise_constant (size k j : ℕ) (hj : j < size) :
    ((stateBeforeTrial size k).a j = (scalarLoop k (2, 2, 0)).1 ∧
     (stateBeforeTrial size k).b j = (scalarLoop k (2, 2, 0)).2.1 ∧
     (stateBeforeTrial size k).c j = (scalarLoop k (2, 2, 0)).2.2) ∧
    ((copyKernel size (stateBeforeTrial size k)).a j = (scalarLoop k (2, 2, 0)).1 ∧
     (copyKernel size (stateBeforeTrial size k)).b j = (scalarLoop k (2, 2, 0)).2.1 ∧
     (copyKernel size (stateBeforeTrial size k)).c j = (scalarLoop k (2, 2, 0)).1) ∧
    ((scaleKernel size (copyKernel size (stateBeforeTrial size k))).a j =
        (scalarLoop k (2, 2, 0)).1 ∧
     (scaleKernel size (copyKernel size (stateBeforeTrial size k))).b j =
        (scalarLoop (k + 1) (2, 2, 0)).2.1 ∧
     (scaleKernel size (copyKernel size (stateBeforeTrial size k))).c j =
        (scalarLoop k (2, 2, 0)).1) ∧
    ((addKernel size (scaleKernel size (copyKernel size (stateBeforeTrial size k)))).a j =
        (scalarLoop k (2, 2, 0)).1 ∧
     (addKernel size (scaleKernel size (copyKernel size (stateBeforeTrial size k)))).b j =
        (scalarLoop (k + 1) (2, 2, 0)).2.1 ∧
     (addKernel size (scaleKernel size (copyKernel size (stateBeforeTrial size k)))).c j =
        (scalarLoop (k + 1) (2, 2, 0)).2.2) ∧
    ((streamTrial size (stateBeforeTrial size k)).a j = (scalarLoop (k + 1) (2, 2, 0)).1 ∧
     (streamTrial size (stateBeforeTrial size k)).b j = (scalarLoop (k + 1) (2, 2, 0)).2.1 ∧
     (streamTrial size (stateBeforeTrial size k)).c j = (scalarLoop (k + 1) (2, 2, 0)).2.2) := by
  obtain ⟨ha, hb, hc⟩ := stateBeforeTrial_const size k j hj
  rw [scalarLoop_succ_right, streamScalarStep_eq]
  refine ⟨⟨ha, hb, hc⟩, ⟨?_, ?_, ?_⟩, ⟨?_, ?_, ?_⟩, ⟨?_, ?_, ?_⟩, ⟨?_, ?_, ?_⟩⟩ <;>
    simp [streamTrial, triadKernel, addKernel, scaleKernel, copyKernel,
      hj, ha, hb, hc, scalar] <;> ring

/-- Claim C10, witness: the elementwise-constancy conjunction at
size 1, trial 0, index 0. -/
theorem stream_arrays_elementwise_constant_witness :
    (stateBeforeTrial 1 0).a 0 = (scalarLoop 0 (2, 2, 0)).1 ∧
    (streamTrial 1 (stateBeforeTrial 1 0)).a 0 = (scalarLoop 1 (2, 2, 0)).1 :=
  ⟨(stream_arrays_elementwise_constant 1 0 0 (by decide)).1.1,
    (stream_arrays_elementwise_constant 1 0 0 (by decide)).2.2.2.2.1⟩

/-! ## Timing aggregation: stream.c lines 213-232, matmul.c lines 143-155 -/

/-- stream.c line 69: `mintime` entries start at FLT_MAX, the largest
finite single-precision value (2 - 2⁻²³)·2¹²⁷. -/
def FLT_MAX : ℚ := 2 ^ 128 - 2 ^ 104

/-- stream.c lines 213-218: `mintime[j] = (mintime[j] < times[j][k]) ?
mintime[j] : times[j][k]` over k = 1 .. NTIMES-1 (iteration 0 skipped),
from the FLT_MAX sentinel. -/
def streamMintime (times : ℕ → ℚ) (ntimes : ℕ) : ℚ :=
  (List.range' 1 (ntimes - 1)).foldl
    (fun m k => if m < times k then m else times k) FLT_MAX

/-- stream.c lines 213-219: the max update over k = 1 .. NTIMES-1, from
the 0 sentinel (line 69). -/
def streamMaxtime (times : ℕ → ℚ) (ntimes : ℕ) : ℚ :=
  (List.range' 1 (ntimes - 1)).foldl
    (fun m k => if m > times k then m else times k) 0

/-- stream.c lines 213-225: `avgtime[j]` accumulated over k = 1 ..
NTIMES-1 then divided by NTIMES-1. -/
def streamAvgtime (times : ℕ → ℚ) (ntimes : ℕ) : ℚ :=
  ((List.range' 1 (ntimes - 1)).foldl (fun s k => s + times k) 0) /
    ((ntimes - 1 : ℕ) : ℚ)

/-- matmul.c lines 98 and 143-155 (vector_add.c likewise): the tracked
minimum starts at 1e9 and is updated on every iteration `iter = 0 ..
ITERATIONS-1`, the first included. -/
def matmulMinTime (times : ℕ → ℚ) (iterations : ℕ) : ℚ :=
  (List.range iterations).foldl
    (fun m iter => if times iter < m then times iter else m) 1000000000

/-- Modelled from the spec: the minimum over the series with iteration 0
dropped, seeded from the first retained sample. -/
def spec_minDropFirst (times : ℕ → ℚ) (n : ℕ) : ℚ :=
  ((List.range' 1 (n - 1)).map times).foldl min (times 1)

/-- The spec's synthetic timing series [5, 1, 3, 1, 9, 2]. -/
def exSeries : ℕ → ℚ :=
  fun k =>
    if k = 0 then 5 else if k = 1 then 1 else if k = 2 then 3
    else if k = 3 then 1 else if k = 4 then 9 else if k = 5 then 2 else 0

/-- A series whose iteration-0 sample is the strict minimum. -/
def riseSeries : ℕ → ℚ := fun k => if k = 0 then 1 else 2

lemma foldl_min_spec {α : Type} [LinearOrder α] (f : ℕ → α) :
    ∀ (l : List ℕ) (init : α),
      (l.foldl (fun m k => if m < f k then m else f k) init ≤ init) ∧
      (∀ k ∈ l, l.foldl (fun m k => if m < f k then m else f k) init ≤ f k) ∧
      (l.foldl (fun m k => if m < f k then m else f k) init = init ∨
        ∃ k ∈ l, l.foldl (fun m k => if m < f k then m else f k) init = f k) := by
  intro l
  induction l with
  | nil => intro init; exact ⟨le_refl _, by simp, Or.inl rfl⟩
  | cons i rest ih =>
    intro init
    have hstep : (if init < f i then init else f i) ≤ init ∧
        (if init < f i then init else f i) ≤ f i := by
      split_ifs with h
      · exact ⟨le_refl _, le_of_lt h⟩
      · exact ⟨le_of_not_lt h, le_refl _⟩
    obtain ⟨h1, h2, h3⟩ := ih (if init < f i then init else f i)
    refine ⟨le_trans h1 hstep.1, ?_, ?_⟩
    · intro k hk
      rcases List.mem_cons.1 hk with hk | hk
      · subst hk; exact le_trans h1 hstep.2
      · exact h2 k hk
    · simp only [List.foldl_cons]
      rcases h3 with h3 | ⟨k, hk, h3⟩
      · rw [h3]
        split_ifs with h
        · exact Or.inl rfl
        · exact Or.inr ⟨i, List.mem_cons_self i rest, rfl⟩
      · exact Or.inr ⟨k, List.mem_cons_of_mem i hk, h3⟩

lemma foldl_max_spec {α : Type} [LinearOrder α] (f : ℕ → α) :
    ∀ (l : List ℕ) (init : α),
      (init ≤ l.foldl (fun m k => if m > f k then m else f k) init) ∧
      (∀ k ∈ l, f k ≤ l.foldl (fun m k => if m > f k then m else f k) init) ∧
      (l.foldl (fun m k => if m > f k then m else f k) init = init ∨
        ∃ k ∈ l, l.foldl (fun m k => if m > f k then m else f k) init = f k) := by
  intro l
  induction l with
  | nil => intro init; exact ⟨le_refl _, by simp, Or.inl rfl⟩
  | cons i rest ih =>
    intro init
    have hstep : init ≤ (if init > f i then init else f i) ∧
        f i ≤ (if init > f i then init else f i) := by
      split_ifs with h
      · exact ⟨le_refl _, le_of_lt h⟩
      · exact ⟨le_of_not_lt h, le_refl _⟩
    obtain ⟨h1, h2, h3⟩ := ih (if init > f i then init else f i)
    refine ⟨le_trans hstep.1 h1, ?_, ?_⟩
    · intro k hk
      rcases List.mem_cons.1 hk with hk | hk
      · subst hk; exact le_trans hstep.2 h1
      · exact h2 k hk
    · simp only [List.foldl_cons]
      rcases h3 with h3 | ⟨k, hk, h3⟩
      · rw [h3]
        split_ifs with h
        · exact Or.inl rfl
        · exact Or.inr ⟨i, List.mem_cons_self i rest, rfl⟩
      · exact Or.inr ⟨k, List.mem_cons_of_mem i hk, h3⟩

lemma min_update_comm {α : Type} [LinearOrder α] (f : ℕ → α) :
    (fun (m : α) (k : ℕ) => if f k < m then f k else m) =
      (fun (m : α) (k : ℕ) => if m < f k then m else f k) := by
  funext m k
  split_ifs with h1 h2 h2
  · exact ((asymm h1) h2).elim
  · rfl
  · rfl
  · exact le_antisymm (not_lt.1 h1) (not_lt.1 h2)

lemma foldl_add_times (times : ℕ → ℚ) :
    ∀ (l : List ℕ) (init : ℚ),
      l.foldl (fun s k => s + times k) init = init + (l.map times).sum := by
  intro l
  induction l with
  | nil => intro init; simp
  | cons i rest ih => intro init; simp [ih, add_assoc]

/-- Claim C4, counterexample: matmul.c's best-time aggregation over the
5-iteration series [1, 2, 2, 2, 2] reports 1 — the iteration-0 sample —
whereas the minimum over the series with iteration 0 dropped is 2; so in
the matmul (and vector_add) harnesses the reported best time does include
the first iteration's sample. -/
theorem matmul_min_includes_iter0 :
    matmulMinTime riseSeries 5 ≠ spec_minDropFirst riseSeries 5 := by
  have h1 : matmulMinTime riseSeries 5 = 1 := by
    have hr : List.range 5 = [0, 1, 2, 3, 4] := rfl
    rw [matmulMinTime, hr]
    norm_num [riseSeries]
  have h2 : spec_minDropFirst riseSeries 5 = 2 := by
    have hr : List.range' 1 (5 - 1) = [1, 2, 3, 4] := rfl
    rw [spec_minDropFirst, hr]
    norm_num [riseSeries]
  rw [h1, h2]
  norm_num

/-- Claim C4 (amended): stream.c's aggregation drops iteration 0 and
computes min, max and arithmetic mean over the remaining N-1 samples —
for the series [5,1,3,1,9,2] yielding min=1, max=9, avg=16/5=3.2 — while
matmul.c and vector_add.c track only a minimum and take it over all N
samples, iteration 0 included. -/
theorem aggregation_spec (times : ℕ → ℚ) (ntimes iterations : ℕ)
    (h2 : 2 ≤ ntimes)
    (hall : ∀ k ∈ List.range' 1 (ntimes - 1), 0 ≤ times k ∧ times k ≤ FLT_MAX) :
    (∀ k ∈ List.range' 1 (ntimes - 1), streamMintime times ntimes ≤ times k) ∧
    (∃ k ∈ List.range' 1 (ntimes - 1), streamMintime times ntimes = times k) ∧
    (∀ k ∈ List.range' 1 (ntimes - 1), times k ≤ streamMaxtime times ntimes) ∧
    (∃ k ∈ List.range' 1 (ntimes - 1), streamMaxtime times ntimes = times k) ∧
    streamAvgtime times ntimes =
      ((List.range' 1 (ntimes - 1)).map times).sum / ((ntimes - 1 : ℕ) : ℚ) ∧
    (∀ k ∈ List.range iterations, matmulMinTime times iterations ≤ times k) ∧
    streamMintime exSeries 6 = 1 ∧ streamMaxtime exSeries 6 = 9 ∧
    streamAvgtime exSeries 6 = 16 / 5 := by
  have hone : (1 : ℕ) ∈ List.range' 1 (ntimes - 1) := by
    have : 0 < ntimes - 1 := by omega
    simp [List.mem_range']
    omega
  obtain ⟨ht1a, ht1b⟩ := hall 1 hone
  obtain ⟨hminI, hminLe, hminMem⟩ :=
    foldl_min_spec times (List.range' 1 (ntimes - 1)) FLT_MAX
  obtain ⟨hmaxI, hmaxLe, hmaxMem⟩ :=
    foldl_max_spec times (List.range' 1 (ntimes - 1)) 0
  refine ⟨hminLe, ?_, hmaxLe, ?_, ?_, ?_, ?_, ?_, ?_⟩
  · rcases hminMem with h | h
    · refine ⟨1, hone, le_antisymm (hminLe 1 hone) ?_⟩
      rw [streamMintime, h]
      exact ht1b
    · exact h
  · rcases hmaxMem with h | h
    · refine ⟨1, hone, le_antisymm ?_ (hmaxLe 1 hone)⟩
      rw [streamMaxtime, h]
      exact ht1a
    · exact h
  · rw [streamAvgtime, foldl_add_times, zero_add]
  · intro k hk
    rw [matmulMinTime, min_update_comm times]
    exact (foldl_min_spec times (List.range iterations) 1000000000).2.1 k hk
  · have hr : List.range' 1 (6 - 1) = [1, 2, 3, 4, 5] := rfl
    rw [streamMintime, hr]
    norm_num [exSeries, FLT_MAX]
  · have hr : List.range' 1 (6 - 1) = [1, 2, 3, 4, 5] := rfl
    rw [streamMaxtime, hr]
    norm_num [exSeries]
  · have hr : List.range' 1 (6 - 1) = [1, 2, 3, 4, 5] := rfl
    rw [streamAvgtime, hr]
    norm_num [exSeries]

/-- Claim C4, witness: the aggregation theorem applied to the spec's
synthetic series with N = 6. -/
theorem aggregation_spec_witness :
    2 ≤ 6 ∧ streamMintime exSeries 6 = 1 ∧ streamMaxtime exSeries 6 = 9 ∧
      streamAvgtime exSeries 6 = 16 / 5 :=
  ⟨by norm_num,
    (aggregation_spec exSeries 6 5 (by norm_num)
      (by
        intro k hk
        rw [show List.range' 1 (6 - 1) = [1, 2, 3, 4, 5] from rfl] at hk
        fin_cases hk <;> norm_num [exSeries, FLT_MAX])).2.2.2.2.2.2⟩

/-! ## Process exit codes: matmul.c main, vector_add.c main, stream.c main -/

/-- matmul.c `main` (lines 93-246): returns 1 at the allocation guard
(lines 127-130), otherwise reaches the final `return 0` (line 245)
whatever the two verification error counts were. -/
def matmul_exit (allocOk : Bool) (_errorsParallel _errorsCollapse : ℕ) : ℤ :=
  if !allocOk then 1 else 0

/-- vector_add.c `main` (lines 49-166): returns 1 at the allocation guard
(lines 80-83), returns 1 when `verify_results` yields 0 (lines 129-135),
else returns 0. -/
def vector_add_exit (allocOk : Bool) (verifyRes : ℤ) : ℤ :=
  if !allocOk then 1 else if verifyRes ≠ 0 then 0 else 1

/-- stream.c `main` (lines 87-239): unconditionally `return 0` (line 238);
`checkSTREAMresults` only prints. -/
def stream_exit : ℤ := 0

/-- matmul.c: the timing loops (lines 143-187) are reached only past the
allocation guard. -/
def matmul_timed (allocOk : Bool) : Bool := allocOk

/-- Claim C5, counterexample: with allocation succeeding and the
parallel-vs-serial verification failing (error count 1 on a pair of
1x1 matrices differing by 1), matmul.c still exits 0, falsifying
"the process exit code is non-zero whenever any verification fails". -/
theorem matmul_exit_zero_despite_failure :
    (verify_results (fun _ => (0 : ℚ)) (fun _ => (1 : ℚ)) 1 (1 / 1000000)).1 = 1 ∧
    matmul_exit true
      (verify_results (fun _ => (0 : ℚ)) (fun _ => (1 : ℚ)) 1 (1 / 1000000)).1 0 = 0 := by
  constructor
  · have h := verify_loop_spec (fun _ => (0 : ℚ)) (fun _ => (1 : ℚ)) (1 / 1000000)
      (List.range (1 * 1)) 0 []
    rw [verify_results, h]
    norm_num [List.range_succ, zero_sub, abs_neg, abs_one]
  · rfl

/-- Claim C5 (amended): vector_add.c exits 0 iff allocation succeeded and
verification passed, and exits 1 on allocation failure (before any timing
runs) or verification failure; matmul.c exits 1 only on allocation
failure (also before timing) and exits 0 even when verification fails;
stream.c always exits 0. -/
theorem exit_codes_spec (allocOk : Bool) (ep ec : ℕ) (vres : ℤ) :
    (vector_add_exit allocOk vres = 0 ↔ allocOk = true ∧ vres ≠ 0) ∧
    vector_add_exit false vres = 1 ∧
    (matmul_exit allocOk ep ec = 0 ↔ allocOk = true) ∧
    matmul_exit false ep ec = 1 ∧
    matmul_timed false = false ∧
    stream_exit = 0 := by
  refine ⟨?_, rfl, ?_, rfl, rfl, rfl⟩
  · cases allocOk <;> by_cases hv : vres = 0 <;> simp [vector_add_exit, hv]
  · cases allocOk <;> simp [matmul_exit]

/-! ## stream.c : clock granularity calibration (`checktick`) -/

/-- stream.c line 241: `#define M 20`, the number of timestamp samples
`checktick` collects. -/
def M : ℕ := 20

/-- The C `(int)` cast of a double: truncation toward zero. -/
def cTrunc (q : ℚ) : ℤ := if 0 ≤ q then ⌊q⌋ else ⌈q⌉

/-- stream.c line 257: `Delta = (int)(1.0E6 * (timesfound[i] -
timesfound[i-1]))`, for the i-th collected timestamp. -/
def checktickDelta (timesfound : ℕ → ℚ) (i : ℕ) : ℤ :=
  cTrunc (1000000 * (timesfound i - timesfound (i - 1)))

/-- The 19 consecutive deltas `checktick` inspects (i = 1 .. M-1). -/
def deltaList (timesfound : ℕ → ℚ) : List ℤ :=
  (List.range' 1 (M - 1)).map (checktickDelta timesfound)

/-- stream.c, `checktick` (lines 243-262): fold `minDelta = (minDelta <
Delta) ? minDelta : Delta` over i = 1 .. M-1 from the sentinel 1000000,
over the timestamps the spin loops collected. -/
def checktick (timesfound : ℕ → ℚ) : ℤ :=
  (List.range' 1 (M - 1)).foldl
    (fun minDelta i =>
      if minDelta < checktickDelta timesfound i then minDelta
      else checktickDelta timesfound i)
    1000000

/-- stream.c lines 148-153: `quantum = checktick()` if that is ≥ 1, else
`quantum = 1`. -/
def quantumOf (timesfound : ℕ → ℚ) : ℤ :=
  if 1 ≤ checktick timesfound then checktick timesfound else 1

/-- Claim C7: `checktick` collects M = 20 (≥ 20) timestamp samples and
returns the minimum of the 19 consecutive whole-microsecond deltas
(provided at least one delta is at most the 1000000 sentinel), and the
quantum `main` uses is that minimum when ≥ 1 and 1 otherwise, hence
always ≥ 1 microsecond. -/
theorem checktick_spec (timesfound : ℕ → ℚ)
    (hex : ∃ i ∈ List.range' 1 (M - 1), checktickDelta timesfound i ≤ 1000000) :
    M = 20 ∧
    (∀ i ∈ List.range' 1 (M - 1), checktick timesfound ≤ checktickDelta timesfound i) ∧
    (∃ i ∈ List.range' 1 (M - 1), checktick timesfound = checktickDelta timesfound i) ∧
    quantumOf timesfound = max (checktick timesfound) 1 ∧
    1 ≤ quantumOf timesfound := by
  obtain ⟨hminI, hminLe, hminMem⟩ :=
    foldl_min_spec (checktickDelta timesfound) (List.range' 1 (M - 1)) 1000000
  obtain ⟨i0, hi0, hle0⟩ := hex
  refine ⟨rfl, hminLe, ?_, ?_, ?_⟩
  · rcases hminMem with h | h
    · refine ⟨i0, hi0, le_antisymm (hminLe i0 hi0) ?_⟩
      rw [checktick, h]
      exact hle0
    · exact h
  · rw [quantumOf]
    split_ifs with h
    · exact (max_eq_left h).symm
    · exact (max_eq_right (le_of_not_le h)).symm
  · rw [quantumOf]
    split_ifs with h
    · exact h
    · exact le_refl 1

/-- The clock trace used to witness the checktick theorem: one tick per
microsecond. -/
def witnessClock : ℕ → ℚ := fun i => (i : ℚ) / 1000000

/-- Claim C7, witness: the checktick theorem applied to the
microsecond-tick clock trace, on which every delta is 1. -/
theorem checktick_spec_witness :
    M = 20 ∧ quantumOf witnessClock = max (checktick witnessClock) 1 ∧
      1 ≤ quantumOf witnessClock := by
  have h := checktick_spec witnessClock
    ⟨1, by decide, by norm_num [checktickDelta, witnessClock, cTrunc]⟩
  exact ⟨rfl, h.2.2.2.1, h.2.2.2.2⟩

/-! ## stream.c : NTIMES configuration -/

/-- stream.c lines 53-55: `#ifndef NTIMES / #define NTIMES 10`; no guard
against NTIMES < 2 exists anywhere in the file. -/
def NTIMES : ℕ := 10

/-- stream.c line 177: the trial indices `k = 0 .. NTIMES-1` the main
loop executes, for a configured iteration count. -/
def streamTrialIndices (ntimes : ℕ) : List ℕ := List.range ntimes

/-- stream.c line 213: the indices `k = 1 .. NTIMES-1` the summarize
loop visits. -/
def streamSummarizeIndices (ntimes : ℕ) : List ℕ := List.range' 1 (ntimes - 1)

/-- Claim C8, counterexample: configured with NTIMES = 1 (< 2), stream.c
raises no configuration error: the main loop still executes a full trial
(trial index 0) and the process exits 0; nothing fails fast. -/
theorem stream_no_ntimes_guard :
    streamTrialIndices 1 = [0] ∧ stream_exit = 0 ∧ streamSummarizeIndices 1 = [] := by
  refine ⟨rfl, rfl, rfl⟩

/-- Claim C8 (amended): stream.c performs no N < 2 validation: for every
configured N the main loop executes all N trials and the process exits 0;
with N = 1 the summarize loop visits no samples and the average divisor
N-1 is 0 (the ideal-arithmetic average degenerates to 0); the
compile-time default NTIMES is 10, so the default build satisfies N ≥ 2. -/
theorem stream_ntimes_unchecked (ntimes : ℕ) (times : ℕ → ℚ) :
    (streamTrialIndices ntimes).length = ntimes ∧
    (streamSummarizeIndices ntimes).length = ntimes - 1 ∧
    stream_exit = 0 ∧
    NTIMES = 10 ∧ 2 ≤ NTIMES ∧
    streamAvgtime times 1 = 0 := by
  refine ⟨?_, ?_, rfl, rfl, by norm_num [NTIMES], ?_⟩
  · simp [streamTrialIndices]
  · simp [streamSummarizeIndices]
  · simp [streamAvgtime]

/-! ## Timestamp sources: get_time (CLOCK_MONOTONIC) vs mysecond (gettimeofday) -/

/-- A trace of the kernel clock values the programs sample: `mono` is the
CLOCK_MONOTONIC timespec sequence read by `clock_gettime` in the OpenMP
examples, `wall` the gettimeofday timeval sequence read by stream.c's
`mysecond`; the wall clock is subject to time adjustments. -/
structure ClockSamples where
  monoSec : ℕ → ℕ
  monoNsec : ℕ → ℕ
  wallSec : ℕ → ℤ
  wallUsec : ℕ → ℤ

/-- matmul.c lines 22-26 / vector_add.c lines 17-21, `get_time`:
`clock_gettime(CLOCK_MONOTONIC, &ts); return ts.tv_sec + ts.tv_nsec*1e-9`. -/
def get_time (env : ClockSamples) (t : ℕ) : ℚ :=
  (env.monoSec t : ℚ) + (env.monoNsec t : ℚ) * (1 / 1000000000)

/-- stream.c lines 264-272, `mysecond`: `gettimeofday(&tp,&tzp); return
tp.tv_sec + tp.tv_usec * 1.e-6`. -/
def mysecond (env : ClockSamples) (t : ℕ) : ℚ :=
  (env.wallSec t : ℚ) + (env.wallUsec t : ℚ) * (1 / 1000000)

/-- A clock trace in which the wall clock is stepped back from 5 s to 3 s
between two samples while the monotonic clock advances normally. -/
def adjustedClock : ClockSamples where
  monoSec := fun t => t
  monoNsec := fun _ => 0
  wallSec := fun t => if t = 0 then 5 else 3
  wallUsec := fun _ => 0

/-- Claim C9, counterexample: stream.c's `mysecond` reads gettimeofday,
a wall-clock source; under a backwards wall-clock adjustment between two
consecutive samples its elapsed time is negative (-2 s here), falsifying
"every timestamp source ... is not affected by wall-clock adjustments,
so the elapsed time between consecutive samples is never negative". -/
theorem mysecond_can_go_backwards :
    mysecond adjustedClock 1 - mysecond adjustedClock 0 < 0 := by
  norm_num [mysecond, adjustedClock]

/-- Claim C9 (amended): `get_time` in the OpenMP examples reads
CLOCK_MONOTONIC with nanosecond fields, so whenever the sampled timespec
sequence is (lexicographically) non-decreasing — which CLOCK_MONOTONIC
guarantees — consecutive `get_time` values never decrease; stream.c's
`mysecond` reads the gettimeofday wall clock (microsecond resolution),
which adjustments can step backwards. -/
theorem get_time_monotone (env : ClockSamples) (t : ℕ)
    (hlex : env.monoSec t < env.monoSec (t + 1) ∨
      (env.monoSec t = env.monoSec (t + 1) ∧ env.monoNsec t ≤ env.monoNsec (t + 1)))
    (hns : env.monoNsec t < 1000000000) :
    get_time env t ≤ get_time env (t + 1) ∧
    0 ≤ get_time env (t + 1) - get_time env t := by
  have hmain : get_time env t ≤ get_time env (t + 1) := by
    rcases hlex with h | ⟨h1, h2⟩
    · have hs : (env.monoSec t : ℚ) + 1 ≤ (env.monoSec (t + 1) : ℚ) := by
        exact_mod_cast Nat.succ_le_of_lt h
      have hn : (env.monoNsec t : ℚ) < 1000000000 := by exact_mod_cast hns
      have hn2 : (0 : ℚ) ≤ (env.monoNsec (t + 1) : ℚ) := by positivity
      rw [get_time, get_time]
      nlinarith
    · have hs : (env.monoSec t : ℚ) = (env.monoSec (t + 1) : ℚ) := by
        exact_mod_cast h1
      have hn : (env.monoNsec t : ℚ) ≤ (env.monoNsec (t + 1) : ℚ) := by
        exact_mod_cast h2
      rw [get_time, get_time, hs]
      nlinarith
  exact ⟨hmain, by linarith⟩

/-- Claim C9, witness: `get_time` monotone across the first two samples
of the adjusted-clock trace (whose monotonic component does advance). -/
theorem get_time_monotone_witness :
    get_time adjustedClock 0 ≤ get_time adjustedClock 1 :=
  (get_time_monotone adjustedClock 0 (Or.inl (by decide)) (by decide)).1

end HpcBench
